import Mathlib

/-
Verification of the HttpClient transfer engine (C++ source under src/)
against its natural-language specification.

The development shallowly embeds the relevant parts of the source:
the handle state word (HttpClient::TransferState), the sliding-window
speed tracker (SlidingWindow), the HTTP method framing performed by the
HttpTransfer constructor, the retry-completion decision, a counting
abstraction of the worker loop plus bounded semaphore, and a per-task
lifecycle machine for promise fulfilment.
-/

namespace HttpClientV

/- ======================================================================
   Part 1: the handle state word.
   Source: include/HttpClient.hpp (enum State, the atomic state member
   initialised to State::Ongoing) and src/HttpClient.cpp
   (TransferState::cancel / pause / resume, and the two stores performed
   by the worker: Completed at harvest, Paused in the pause handler).
   ====================================================================== -/

namespace TransferState

/-- Enum HttpClient::TransferState::State from include/HttpClient.hpp:
Pending, Ongoing, Completed, Pause (a requested pause), Paused, Resume
(a requested resume), Failed, Cancel. -/
inductive State where
  | Pending
  | Ongoing
  | Completed
  | Pause
  | Paused
  | Resume
  | Failed
  | Cancel
deriving DecidableEq, Repr, Fintype

/-- Initial value of the atomic state word: the member is declared as
state initialised to State::Ongoing, so a handle returned by send_request
reads Ongoing before any other store happens. -/
def initState : State := State.Ongoing

/-- Effect of TransferState::cancel on the state word: an unconditional
release store of State::Cancel (src/HttpClient.cpp, cancel body). -/
def cancel (_s : State) : State := State.Cancel

/-- Effect of TransferState::pause on the state word: compare-exchange
from Ongoing to Pause; on failure the call discards the request and the
word is unchanged. -/
def pause (s : State) : State :=
  if s = State.Ongoing then State.Pause else s

/-- Effect of TransferState::resume on the state word: compare-exchange
from Paused to Ongoing; on failure the call discards the request and the
word is unchanged. -/
def resume (s : State) : State :=
  if s = State.Paused then State.Ongoing else s

/-- Store performed by the worker when it harvests a completion:
state.store(State::Completed). -/
def storeCompleted (_s : State) : State := State.Completed

/-- Store performed by the worker pause handler on an in-flight task:
state.store(State::Paused). -/
def storePaused (_s : State) : State := State.Paused

/-- User-facing operations on the state word, i.e. the three public
lifecycle calls of the handle. -/
inductive UserOp where
  | cancel
  | pause
  | resume
deriving DecidableEq, Repr, Fintype

/-- Apply one user operation to the state word. -/
def applyUserOp (op : UserOp) (s : State) : State :=
  match op with
  | UserOp.cancel => cancel s
  | UserOp.pause => pause s
  | UserOp.resume => resume s

/-- Apply a sequence of user operations, oldest first. -/
def applyUserOps (ops : List UserOp) (s : State) : State :=
  ops.foldl (fun t op => applyUserOp op t) s

/-- Every store that can ever hit the state word: the three user calls
plus the two worker stores. -/
inductive FullOp where
  | user (op : UserOp)
  | storeCompleted
  | storePaused
deriving DecidableEq, Repr

/-- Apply one arbitrary store to the state word. -/
def applyFullOp (op : FullOp) (s : State) : State :=
  match op with
  | FullOp.user u => applyUserOp u s
  | FullOp.storeCompleted => storeCompleted s
  | FullOp.storePaused => storePaused s

/-- Apply a sequence of arbitrary stores, oldest first. -/
def applyFullOps (ops : List FullOp) (s : State) : State :=
  ops.foldl (fun t op => applyFullOp op t) s

/-- Terminal states named by the specification: Completed, Failed, and
the cancel-path terminal value Cancel. -/
def terminal (s : State) : Prop :=
  s = State.Completed ∨ s = State.Failed ∨ s = State.Cancel

instance (s : State) : Decidable (terminal s) := by
  unfold terminal; infer_instance

theorem applyUserOps_append (ops₁ ops₂ : List UserOp) (s : State) :
    applyUserOps (ops₁ ++ ops₂) s = applyUserOps ops₂ (applyUserOps ops₁ s) := by
  simp [applyUserOps, List.foldl_append]

end TransferState

open TransferState

/-- C1 counterexample: the claim says that once the state is a terminal
value no further cancel() changes it, but cancel() stores Cancel
unconditionally, so on a Completed handle it moves the state word from
Completed to Cancel. -/
theorem C1_counterexample :
    TransferState.cancel State.Completed = State.Cancel ∧
      State.Cancel ≠ State.Completed := by
  decide

/-- C1 (amended): once the state word is terminal, pause() and resume()
never change it; an arbitrary sequence of user calls keeps it terminal
and can only either leave it unchanged or overwrite it with Cancel (the
unconditional store of cancel()); in particular a sequence containing no
cancel() leaves a terminal state exactly as it was. -/
theorem C1_terminal_stability (ops : List UserOp) (s : State)
    (hs : terminal s) :
    terminal (applyUserOps ops s) ∧
      (applyUserOps ops s = s ∨ applyUserOps ops s = State.Cancel) ∧
      ((∀ op ∈ ops, op ≠ UserOp.cancel) → applyUserOps ops s = s) := by
  induction ops generalizing s with
  | nil =>
    refine ⟨hs, Or.inl rfl, fun _ => rfl⟩
  | cons op rest ih =>
    have hstep : terminal (applyUserOp op s) ∧
        (applyUserOp op s = s ∨ applyUserOp op s = State.Cancel) := by
      rcases hs with h | h | h <;> subst h <;> cases op <;> decide
    have ihrest := ih (applyUserOp op s) hstep.1
    refine ⟨ihrest.1, ?_, ?_⟩
    · rcases ihrest.2.1 with h | h
      · rw [show applyUserOps (op :: rest) s = applyUserOps rest (applyUserOp op s) from rfl, h]
        exact hstep.2
      · exact Or.inr (by
          rw [show applyUserOps (op :: rest) s = applyUserOps rest (applyUserOp op s) from rfl, h])
    · intro hnc
      have hop : applyUserOp op s = s := by
        have : op ≠ UserOp.cancel := hnc op (by simp)
        rcases hs with h | h | h <;> subst h <;> cases op <;> first
          | decide
          | exact absurd rfl this
      have h2 := ihrest.2.2 (fun o ho => hnc o (by simp [ho]))
      calc applyUserOps (op :: rest) s
          = applyUserOps rest (applyUserOp op s) := rfl
        _ = applyUserOp op s := h2
        _ = s := hop

/-- C1 witness: instantiating the stability theorem on a Completed state
with a pause-then-resume sequence. -/
theorem C1_terminal_stability_witness :
    applyUserOps [UserOp.pause, UserOp.resume] State.Completed = State.Completed :=
  (C1_terminal_stability [UserOp.pause, UserOp.resume] State.Completed
      (Or.inl rfl)).2.2 (by decide)

/-- C6 counterexample: the claim says resume() performs a
compare-and-swap from Paused to the requested-resume state (the enum
value Resume), but the source CASes Paused directly to Ongoing. -/
theorem C6_counterexample :
    TransferState.resume State.Paused = State.Ongoing ∧
      State.Ongoing ≠ State.Resume := by
  decide

/-- C6 (amended): pause() changes the state word only by a
compare-and-swap from Ongoing to Pause and is a no-op on every other
state; resume() changes it only by a compare-and-swap from Paused to
Ongoing (not to the enum value Resume, which is never stored) and is a
no-op on every other state; in particular a resume() arriving while the
word is Pause (pause requested) is dropped. -/
theorem C6_pause_resume_cas :
    (∀ s, s ≠ State.Ongoing → TransferState.pause s = s) ∧
      TransferState.pause State.Ongoing = State.Pause ∧
      (∀ s, s ≠ State.Paused → TransferState.resume s = s) ∧
      TransferState.resume State.Paused = State.Ongoing ∧
      TransferState.resume State.Pause = State.Pause := by
  decide

/-- C6 witness: instantiating the CAS characterisation at the dropped
resume-while-pause-requested case. -/
theorem C6_pause_resume_cas_witness :
    TransferState.resume State.Completed = State.Completed :=
  C6_pause_resume_cas.2.2.1 State.Completed (by decide)

/-- Helper for C10: no store ever produces the Pending value. -/
theorem applyFullOp_ne_pending (op : FullOp) (s : State)
    (hs : s ≠ State.Pending) : applyFullOp op s ≠ State.Pending := by
  cases op with
  | user u => cases u <;> revert hs <;> cases s <;> decide
  | storeCompleted =>
    intro h
    simp [applyFullOp, TransferState.storeCompleted] at h
  | storePaused =>
    intro h
    simp [applyFullOp, TransferState.storePaused] at h

/-- C10: the state word starts as Ongoing (so get_state() immediately
after send_request returns Ongoing), and no sequence of stores — user
calls or worker stores — can ever make it Pending: the Pending
enumerator is declared but never assigned. -/
theorem C10_pending_unobservable :
    initState = State.Ongoing ∧
      (∀ (op : FullOp) (s : State), s ≠ State.Pending →
        applyFullOp op s ≠ State.Pending) ∧
      (∀ ops : List FullOp, applyFullOps ops initState ≠ State.Pending) := by
  refine ⟨rfl, applyFullOp_ne_pending, ?_⟩
  intro ops
  suffices h : ∀ s, s ≠ State.Pending → applyFullOps ops s ≠ State.Pending by
    exact h initState (by decide)
  induction ops with
  | nil => intro s hs; exact hs
  | cons op rest ih =>
    intro s hs
    exact ih (applyFullOp op s) (applyFullOp_ne_pending op s hs)

/-- C10 witness: the per-store part at a concrete store and state. -/
theorem C10_pending_unobservable_witness :
    applyFullOp FullOp.storeCompleted State.Ongoing ≠ State.Pending :=
  C10_pending_unobservable.2.1 FullOp.storeCompleted State.Ongoing (by decide)

/- ======================================================================
   Part 2: the sliding-window speed tracker.
   Source: include/RetryStrategies.hpp, class SlidingWindow.  The C++
   member buffer is a std::vector that the constructor merely reserves
   (never resizes); push writes through operator[], which does not grow
   the vector, so the vector size stays 0 for the whole lifetime.  We
   model the reserved backing storage as a total function on indices
   (cells are never read before being written on the executed paths) and
   keep the vector size in vecSize, exactly as the iterators
   begin()/end() see it.
   ====================================================================== -/

/-- Model of class SlidingWindow (include/RetryStrategies.hpp):
buffer is the reserved backing storage, vecSize the size() of the
std::vector (0 forever: reserve does not change it and operator[]
writes do not grow it), and size, cap, head_, sum_ are the homonymous
members. -/
structure SlidingWindow where
  buffer : Nat → ℚ
  vecSize : Nat
  size : Nat
  cap : Nat
  head_ : Nat
  sum_ : ℚ

/-- Constructor SlidingWindow(capacity): reserve(capacity) allocates but
leaves the vector size at 0; counters start at 0. -/
def SlidingWindow.init (capacity : Nat) : SlidingWindow :=
  { buffer := fun _ => 0, vecSize := 0, size := 0, cap := capacity,
    head_ := 0, sum_ := 0 }

/-- Member push(value): when not full, write the slot at head_, add to
the running sum and grow the count; when full, subtract the overwritten
slot from the running sum first.  Either way head_ advances modulo the
capacity and the vector size is untouched. -/
def SlidingWindow.push (w : SlidingWindow) (value : ℚ) : SlidingWindow :=
  if w.size < w.cap then
    { w with
        buffer := fun i => if i = w.head_ then value else w.buffer i,
        sum_ := w.sum_ + value,
        size := w.size + 1,
        head_ := (w.head_ + 1) % w.cap }
  else
    { w with
        buffer := fun i => if i = w.head_ then value else w.buffer i,
        sum_ := w.sum_ - w.buffer w.head_ + value,
        head_ := (w.head_ + 1) % w.cap }

/-- Member mean(): sum_ / size when the count is non-zero, else 0. -/
def SlidingWindow.mean (w : SlidingWindow) : ℚ :=
  if w.size = 0 then 0 else w.sum_ / (w.size : ℚ)

/-- Member max(): std::max_element over the iterator range
begin()..end() of the vector, i.e. over its first vecSize elements;
returns 0 when that range is empty. -/
def SlidingWindow.max (w : SlidingWindow) : ℚ :=
  match (List.range w.vecSize).map w.buffer with
  | [] => 0
  | x :: xs => xs.foldl Max.max x

/-- Push a whole sequence of samples, oldest first. -/
def SlidingWindow.pushAll (w : SlidingWindow) (xs : List ℚ) : SlidingWindow :=
  xs.foldl SlidingWindow.push w

/-- Speed-tracking slice of HttpClient: the two per-direction windows
(members uplinkAvgSpeed and downlinkAvgSpeed). -/
structure SpeedTrack where
  uplinkAvgSpeed : SlidingWindow
  downlinkAvgSpeed : SlidingWindow

/-- HttpClient::peakUplinkSpeed returns uplinkAvgSpeed.max(). -/
def peakUplinkSpeed (c : SpeedTrack) : ℚ := c.uplinkAvgSpeed.max

/-- HttpClient::peakDownlinkSpeed returns downlinkAvgSpeed.max(). -/
def peakDownlinkSpeed (c : SpeedTrack) : ℚ := c.downlinkAvgSpeed.max

/-- Window contents according to the specification: the most recent
min(N, capacity) pushed values, i.e. all but the first N - capacity. -/
def lastWindow (cap : Nat) (xs : List ℚ) : List ℚ :=
  xs.drop (xs.length - cap)

theorem SlidingWindow.push_cap (w : SlidingWindow) (x : ℚ) :
    (w.push x).cap = w.cap := by
  unfold SlidingWindow.push; split <;> rfl

theorem SlidingWindow.push_vecSize (w : SlidingWindow) (x : ℚ) :
    (w.push x).vecSize = w.vecSize := by
  unfold SlidingWindow.push; split <;> rfl

theorem SlidingWindow.pushAll_append (w : SlidingWindow) (xs : List ℚ) (x : ℚ) :
    w.pushAll (xs ++ [x]) = (w.pushAll xs).push x := by
  simp [SlidingWindow.pushAll, List.foldl_append]

theorem SlidingWindow.pushAll_cap (w : SlidingWindow) (xs : List ℚ) :
    (w.pushAll xs).cap = w.cap := by
  induction xs using List.reverseRecOn with
  | nil => rfl
  | append_singleton ys y ih =>
    rw [SlidingWindow.pushAll_append, SlidingWindow.push_cap, ih]

theorem SlidingWindow.pushAll_vecSize (w : SlidingWindow) (xs : List ℚ) :
    (w.pushAll xs).vecSize = w.vecSize := by
  induction xs using List.reverseRecOn with
  | nil => rfl
  | append_singleton ys y ih =>
    rw [SlidingWindow.pushAll_append, SlidingWindow.push_vecSize, ih]

/-- Invariant tying the window state after pushing the sequence xs to
the specification-level window contents. -/
def WindowInv (xs : List ℚ) (w : SlidingWindow) : Prop :=
  w.size = min xs.length w.cap ∧
  w.head_ = xs.length % w.cap ∧
  w.sum_ = (lastWindow w.cap xs).sum ∧
  ∀ j < w.size,
    w.buffer ((xs.length - w.size + j) % w.cap) = (lastWindow w.cap xs).getD j 0

theorem windowInv_init (c : Nat) : WindowInv [] (SlidingWindow.init c) := by
  refine ⟨by simp [SlidingWindow.init], by simp [SlidingWindow.init], ?_, ?_⟩
  · simp [SlidingWindow.init, lastWindow]
  · intro j hj
    simp [SlidingWindow.init] at hj

theorem windowInv_push (x : ℚ) (xs : List ℚ) (w : SlidingWindow)
    (hcap : 0 < w.cap) (h : WindowInv xs w) :
    WindowInv (xs ++ [x]) (w.push x) := by
  obtain ⟨hsize, hhead, hsum, hbuf⟩ := h
  unfold SlidingWindow.push
  by_cases hfull : w.size < w.cap
  · -- not-full branch: xs.length < w.cap
    have hn : xs.length < w.cap := by omega
    have hsize' : w.size = xs.length := by omega
    rw [if_pos hfull]
    refine ⟨?_, ?_, ?_, ?_⟩
    · simp only [List.length_append, List.length_cons, List.length_nil]
      omega
    · simp only [List.length_append, List.length_cons, List.length_nil, hhead]
      rw [Nat.mod_add_mod]
    · have hwin : lastWindow w.cap xs = xs := by
        unfold lastWindow
        rw [Nat.sub_eq_zero_of_le (le_of_lt hn), List.drop_zero]
      have hwin' : lastWindow w.cap (xs ++ [x]) = xs ++ [x] := by
        unfold lastWindow
        rw [List.length_append, List.length_cons, List.length_nil,
          Nat.sub_eq_zero_of_le (by omega), List.drop_zero]
      simp only [hsum, hwin, hwin', List.sum_append, List.sum_cons,
        List.sum_nil, add_zero]
    · intro j hj
      simp only [List.length_append, List.length_cons, List.length_nil] at hj ⊢
      have hj' : j < xs.length + 1 := by omega
      have hidx : xs.length + 1 - (w.size + 1) + j = j := by omega
      have hjmod : j % w.cap = j := Nat.mod_eq_of_lt (by omega)
      have hwin : lastWindow w.cap xs = xs := by
        unfold lastWindow
        rw [Nat.sub_eq_zero_of_le (le_of_lt hn), List.drop_zero]
      have hwin' : lastWindow w.cap (xs ++ [x]) = xs ++ [x] := by
        unfold lastWindow
        rw [List.length_append, List.length_cons, List.length_nil,
          Nat.sub_eq_zero_of_le (by omega), List.drop_zero]
      rw [hidx, hjmod, hwin']
      by_cases hje : j = xs.length
      · subst hje
        have hhd : w.head_ = xs.length := by
          rw [hhead, Nat.mod_eq_of_lt hn]
        rw [hhd]
        simp only [if_pos]
        rw [List.getD_append_right _ _ _ _ (le_refl _)]
        simp
      · have hjlt : j < xs.length := by omega
        have hne : j ≠ w.head_ := by
          rw [hhead, Nat.mod_eq_of_lt hn]; omega
        simp only [if_neg hne]
        have hold := hbuf j (by omega)
        rw [hsize', hwin] at hold
        have hidx0 : xs.length - xs.length + j = j := by omega
        rw [hidx0, hjmod] at hold
        rw [List.getD_append _ _ _ _ hjlt]
        exact hold
  · -- full branch: w.cap ≤ xs.length and w.size = w.cap
    have hcaple : w.cap ≤ xs.length := by
      by_contra hlt
      push_neg at hlt
      omega
    have hsize' : w.size = w.cap := by omega
    rw [if_neg hfull]
    set k := xs.length - w.cap with hk
    have hklt : k < xs.length := by omega
    have hkc : xs.length = k + w.cap := by omega
    have hheadk : w.head_ = k % w.cap := by
      rw [hhead, Nat.mod_eq_sub_mod hcaple]
    -- decompose the old window as its oldest element consed on the rest
    have hdropcons : xs.drop k = xs.getD k 0 :: xs.drop (k + 1) := by
      rw [List.getD_eq_getElem xs 0 hklt]
      exact List.drop_eq_getElem_cons hklt
    have hwold : lastWindow w.cap xs = xs.getD k 0 :: xs.drop (k + 1) := by
      unfold lastWindow
      rw [← hk, hdropcons]
    have hwnew : lastWindow w.cap (xs ++ [x]) = xs.drop (k + 1) ++ [x] := by
      unfold lastWindow
      rw [List.length_append, List.length_cons, List.length_nil]
      have : xs.length + 1 - w.cap = k + 1 := by omega
      rw [this, List.drop_append_of_le_length (by omega)]
    have hoverwritten : w.buffer w.head_ = xs.getD k 0 := by
      have hold := hbuf 0 (by omega)
      rw [hsize', hwold] at hold
      simp only [add_zero, List.getD_cons_zero] at hold
      rw [hheadk]
      rw [← hk] at hold
      exact hold
    refine ⟨?_, ?_, ?_, ?_⟩
    · simp only [List.length_append, List.length_cons, List.length_nil]
      omega
    · simp only [List.length_append, List.length_cons, List.length_nil, hhead]
      rw [Nat.mod_add_mod]
    · rw [hwnew, hsum, hwold]
      simp only [List.sum_cons, List.sum_append, List.sum_cons, List.sum_nil,
        add_zero, hoverwritten]
      ring
    · intro j hj
      have hj2 : j < w.size := hj
      have hjcap : j < w.cap := by omega
      simp only [List.length_append, List.length_cons, List.length_nil]
      have hidx : xs.length + 1 - w.size + j = k + 1 + j := by omega
      rw [hidx, hwnew]
      have hlendrop : (xs.drop (k + 1)).length = w.cap - 1 := by
        rw [List.length_drop]; omega
      by_cases hjlast : j = w.cap - 1
      · -- the newest slot: index wraps onto head_, holding the new value
        have hmod : (k + 1 + j) % w.cap = w.head_ := by
          rw [hheadk]
          have : k + 1 + j = k + w.cap := by omega
          rw [this, Nat.add_mod_right]
        rw [hmod]
        simp only [if_pos]
        rw [List.getD_append_right _ _ _ _ (by omega)]
        simp [hlendrop, hjlast]
      · -- older slots: untouched by the write at head_
        have hjlt : j < w.cap - 1 := by omega
        have hne : (k + 1 + j) % w.cap ≠ w.head_ := by
          rw [hheadk]
          intro habs
          have h2 : k + (1 + j) ≡ k + 0 [MOD w.cap] := by
            have h1 : (k + (1 + j)) % w.cap = k % w.cap := by
              rw [← Nat.add_assoc]; exact habs
            simpa [Nat.ModEq] using h1
          have h3 : 1 + j ≡ 0 [MOD w.cap] := Nat.ModEq.add_left_cancel' k h2
          have h4 : w.cap ∣ 1 + j := (Nat.modEq_zero_iff_dvd).mp h3
          have h5 : w.cap ≤ 1 + j := Nat.le_of_dvd (by omega) h4
          omega
        simp only [if_neg hne]
        have hold := hbuf (j + 1) (by omega)
        have hidx1 : xs.length - w.size + (j + 1) = k + 1 + j := by omega
        rw [hidx1, hwold] at hold
        rw [List.getD_cons_succ] at hold
        rw [hold, List.getD_append _ _ _ _ (by omega)]

theorem windowInv_pushAll (cap : Nat) (hcap : 0 < cap) (xs : List ℚ) :
    WindowInv xs ((SlidingWindow.init cap).pushAll xs) := by
  induction xs using List.reverseRecOn with
  | nil => exact windowInv_init cap
  | append_singleton ys y ih =>
    rw [SlidingWindow.pushAll_append]
    have hc : ((SlidingWindow.init cap).pushAll ys).cap = cap :=
      SlidingWindow.pushAll_cap _ _
    exact windowInv_push y ys _ (by rw [hc]; exact hcap) ih

/-- C9: for every capacity C > 0 and every push sequence, mean() equals
the sum of the window contents (the most recent min(N, C) pushed values)
divided by their count, and 0 when the window is empty; in particular
after n ≥ C pushes of the same value v, mean() is exactly v.  (The C++
computes in float/double; the model computes in ℚ, which is the
within-tolerance idealisation the claim allows.) -/
theorem C9_mean_window (cap : Nat) (hcap : 0 < cap) (xs : List ℚ) :
    (((SlidingWindow.init cap).pushAll xs).mean =
        if xs.length = 0 then 0
        else (lastWindow cap xs).sum / ((min xs.length cap : Nat) : ℚ)) ∧
      ∀ (v : ℚ) (n : Nat), cap ≤ n →
        ((SlidingWindow.init cap).pushAll (List.replicate n v)).mean = v := by
  have hmean : ∀ ys : List ℚ,
      ((SlidingWindow.init cap).pushAll ys).mean =
        if ys.length = 0 then 0
        else (lastWindow cap ys).sum / ((min ys.length cap : Nat) : ℚ) := by
    intro ys
    obtain ⟨hsize, _hhead, hsum, _hbuf⟩ := windowInv_pushAll cap hcap ys
    have hc : ((SlidingWindow.init cap).pushAll ys).cap = cap :=
      SlidingWindow.pushAll_cap _ _
    rw [hc] at hsize hsum
    unfold SlidingWindow.mean
    rw [hsize, hsum]
    by_cases hys : ys.length = 0
    · simp [hys]
    · have hpos : 0 < min ys.length cap := by omega
      rw [if_neg (by omega), if_neg hys]
  refine ⟨hmean xs, ?_⟩
  intro v n hn
  rw [hmean (List.replicate n v)]
  have hlen : (List.replicate n v).length = n := List.length_replicate n v
  have hwin : lastWindow cap (List.replicate n v) = List.replicate cap v := by
    unfold lastWindow
    rw [hlen, List.drop_replicate]
    congr 1
    omega
  rw [hwin, hlen, if_neg (by omega), List.sum_replicate]
  have hmin : min n cap = cap := by omega
  rw [hmin, nsmul_eq_mul]
  have hcapq : ((cap : Nat) : ℚ) ≠ 0 := Nat.cast_ne_zero.mpr (by omega)
  field_simp

/-- C9 witness: pushing the value 7 twice into a capacity-2 window
yields a mean of exactly 7. -/
theorem C9_mean_window_witness :
    ((SlidingWindow.init 2).pushAll (List.replicate 2 (7 : ℚ))).mean = 7 :=
  (C9_mean_window 2 (by decide) []).2 7 2 (le_refl 2)

/-- C8: the source of the bug the claim misses.  max() scans the
iterator range begin()..end() of the vector, but the constructor only
reserves (never resizes) it and push writes through operator[], so the
vector size stays 0 and the scanned range is always empty: max() returns
0 for every push history, even though the window demonstrably holds
samples (its mean after pushing 5 is 5), and the peak-speed accessor
returns that same 0. -/
theorem C8_max_bug :
    (∀ (c : Nat) (xs : List ℚ), ((SlidingWindow.init c).pushAll xs).max = 0) ∧
      ((SlidingWindow.init 4).pushAll [5]).mean = 5 ∧
      peakUplinkSpeed ⟨(SlidingWindow.init 4).pushAll [5], SlidingWindow.init 4⟩ = 0 := by
  have hzero : ∀ (c : Nat) (xs : List ℚ),
      ((SlidingWindow.init c).pushAll xs).max = 0 := by
    intro c xs
    unfold SlidingWindow.max
    rw [SlidingWindow.pushAll_vecSize]
    rfl
  refine ⟨hzero, ?_, hzero 4 [5]⟩
  norm_num [SlidingWindow.pushAll, SlidingWindow.push, SlidingWindow.init,
    SlidingWindow.mean]

/- ======================================================================
   Part 3: HTTP method handling when building a transfer.
   Source: HttpRequest::method2Enum (include/HttpClient.hpp), the helper
   util::toupper, and the method switch of the HttpTransfer constructor
   (src/HttpClient.cpp): HEAD sets NOBODY, GET sets NOBODY and HTTPGET,
   POST sets POST plus POSTFIELDS/POSTFIELDSIZE from the body, and the
   default branch sets CUSTOMREQUEST to toupper(methodName) and, when
   the body is non-empty, POSTFIELDS/POSTFIELDSIZE.
   ====================================================================== -/

/-- Per-character body of util::toupper: subtract 32 from a lower-case
ASCII letter, leave every other character unchanged. -/
def toupperChar (c : Char) : Char :=
  if 'a' ≤ c ∧ c ≤ 'z' then Char.ofNat (c.toNat - 32) else c

/-- Helper util::toupper: map every character of the string through the
lower-to-upper-case conversion. -/
def toupper (s : String) : String :=
  String.mk (s.data.map toupperChar)

/-- Enum HttpRequest::Method, in HTTP_METHODS declaration order and with
the catch-all OTHER. -/
inductive Method where
  | GET
  | POST
  | HEAD
  | PATCH
  | PUT
  | DELETE
  | OTHER
deriving DecidableEq, Repr

/-- HttpRequest::method2Enum: compare toupper(methodName) against each
well-known name in HTTP_METHODS order, falling through to OTHER. -/
def method2Enum (methodName : String) : Method :=
  if toupper methodName = "GET" then Method.GET
  else if toupper methodName = "POST" then Method.POST
  else if toupper methodName = "HEAD" then Method.HEAD
  else if toupper methodName = "PATCH" then Method.PATCH
  else if toupper methodName = "PUT" then Method.PUT
  else if toupper methodName = "DELETE" then Method.DELETE
  else Method.OTHER

/-- Request model from include/HttpClient.hpp: url, free-form method
name, verbatim header lines, body bytes. -/
structure HttpRequest where
  url : String
  methodName : String
  headers : List String
  body : String

/-- Curl options the method switch of the HttpTransfer constructor can
set: CURLOPT_NOBODY, CURLOPT_HTTPGET, CURLOPT_POST, CURLOPT_CUSTOMREQUEST,
and the body handed over via CURLOPT_POSTFIELDS with its declared
CURLOPT_POSTFIELDSIZE. -/
structure MethodFraming where
  nobody : Bool
  httpget : Bool
  post : Bool
  customRequest : Option String
  postfields : Option String
  postfieldsize : Option Nat
deriving DecidableEq, Repr

/-- Method switch of HttpTransfer::HttpTransfer (src/HttpClient.cpp):
dispatch on method2Enum(request.methodName); HEAD and GET force no body,
POST sends the body with its declared size, and every remaining case
(PATCH, PUT, DELETE, OTHER) sets CUSTOMREQUEST to
util::toupper(request.methodName) and sends the body with its declared
size only when it is non-empty. -/
def setupMethod (request : HttpRequest) : MethodFraming :=
  match method2Enum request.methodName with
  | Method.HEAD =>
    { nobody := true, httpget := false, post := false,
      customRequest := none, postfields := none, postfieldsize := none }
  | Method.GET =>
    { nobody := true, httpget := true, post := false,
      customRequest := none, postfields := none, postfieldsize := none }
  | Method.POST =>
    { nobody := false, httpget := false, post := true,
      customRequest := none, postfields := some request.body,
      postfieldsize := some request.body.length }
  | _ =>
    { nobody := false, httpget := false, post := false,
      customRequest := some (toupper request.methodName),
      postfields := if request.body.length ≠ 0 then some request.body else none,
      postfieldsize := if request.body.length ≠ 0 then some request.body.length else none }

/-- C7 counterexample: the claim says a method name that is none of the
well-known ones is passed to the transport verbatim, but the constructor
passes util::toupper of it: for the method name purge the transport
receives PURGE. -/
theorem C7_counterexample :
    (setupMethod { url := "u", methodName := "purge", headers := [], body := "" }).customRequest
        = some "PURGE" ∧
      some "PURGE" ≠ some "purge" := by
  constructor
  · rfl
  · decide

/-- C7 (amended): GET and HEAD force no body; POST sends the body with
its declared length; every other method name is passed to the transport
upper-cased (via util::toupper, not verbatim), and its body, when
non-empty, is sent with its declared length. -/
theorem C7_method_framing (r : HttpRequest) :
    (method2Enum r.methodName = Method.GET →
      (setupMethod r).nobody = true ∧ (setupMethod r).postfields = none) ∧
    (method2Enum r.methodName = Method.HEAD →
      (setupMethod r).nobody = true ∧ (setupMethod r).postfields = none) ∧
    (method2Enum r.methodName = Method.POST →
      (setupMethod r).post = true ∧
        (setupMethod r).postfields = some r.body ∧
        (setupMethod r).postfieldsize = some r.body.length) ∧
    (method2Enum r.methodName ≠ Method.GET →
      method2Enum r.methodName ≠ Method.HEAD →
      method2Enum r.methodName ≠ Method.POST →
      (setupMethod r).customRequest = some (toupper r.methodName) ∧
        (r.body.length ≠ 0 →
          (setupMethod r).postfields = some r.body ∧
            (setupMethod r).postfieldsize = some r.body.length) ∧
        (r.body.length = 0 → (setupMethod r).postfields = none)) := by
  unfold setupMethod
  rcases hm : method2Enum r.methodName with _ | _ | _ | _ | _ | _ | _ <;>
    by_cases hb : r.body.length = 0 <;> simp [hm, hb]

/-- C7 witness: a custom-method request with a non-empty body at a
concrete input. -/
theorem C7_method_framing_witness :
    (setupMethod { url := "u", methodName := "Link", headers := [], body := "z" }).customRequest
      = some (toupper "Link") :=
  ((C7_method_framing { url := "u", methodName := "Link", headers := [], body := "z" }).2.2.2
    (by decide) (by decide) (by decide)).1

/- ======================================================================
   Part 4: connection-slot accounting of the worker loop.
   Source: BoundedSemaphore (acquire / try_acquire / release with
   saturation at max_count_), HttpClient::send_request (acquire one
   permit, then enqueue on requests), and the worker loop
   (src/HttpClient.cpp): admission moves a queued task into the
   transfers list; the harvest releases a permit for every DONE handle;
   the cancel handler releases a permit for any task still in curl2Task
   — also for a task that already released its permit when it was
   paused; the pause handler releases a permit for any toPaused entry
   that resolves in curl2Task — also for a task that is already paused
   and holds no permit, which is reachable because a user can resume()
   (CAS Paused to Ongoing, post to toResumed) and then pause() again
   (CAS Ongoing to Pause, post to toPaused) before the worker runs, and
   the worker drains toPaused before toResumed; the resume handler
   try_acquires a permit before unpausing.  MAX_CONNECTION is 8.
   ====================================================================== -/

/-- Semaphore capacity MAX_CONNECTION from include/HttpClient.hpp. -/
def MAX_CONNECTION : Nat := 8

/-- BoundedSemaphore::release: increment the count only while it is
below max_count_, i.e. a saturating increment. -/
def semRelease (count : Nat) : Nat :=
  if count < MAX_CONNECTION then count + 1 else count

/-- Counting abstraction of the engine: the semaphore count, the number
of tasks in the requests queue (each already holding a permit), the
number of in-flight tasks currently transferring, the number of
in-flight tasks paused (their permit released), and a ghost counter of
over-release events — worker releases performed for a task that holds
no permit (a cancel of a paused task, a pause event landing on an
already-paused task, or a completion harvested for a paused task). -/
structure PoolState where
  count : Nat
  queued : Nat
  active : Nat
  paused : Nat
  overReleased : Nat
deriving DecidableEq, Repr

/-- Engine state just after construction: the semaphore starts at
MAX_CONNECTION and no task exists. -/
def initPool : PoolState :=
  { count := MAX_CONNECTION, queued := 0, active := 0, paused := 0,
    overReleased := 0 }

/-- One step of the engine, as the worker loop and the submitters can
take it: submit (send_request: acquire then enqueue), admitTask (worker
adds a queued task to the multi handle), pause (worker pause handler on
a transferring task: curl_easy_pause then release), pausedRelease
(worker pause handler on a task that is already paused and holds no
permit — the resume-then-pause race, since toPaused is drained before
toResumed: curl_easy_pause is a no-op, the release is real, and the
task stays paused until its pending resume event is served), resume
(worker resume handler: try_acquire then unpause), complete (harvest:
remove handle, release), completePaused (harvest of a DONE reported for
a paused task, e.g. a per-attempt timeout expiring while paused: the
release happens for every DONE handle), cancelActive / cancelPaused
(cancel handler: remove handle, release, fail promise — the release
happens regardless of whether the task had already released its permit
when pausing). -/
inductive PoolStep : PoolState → PoolState → Prop where
  | submit (s : PoolState) (h : 0 < s.count) :
      PoolStep s { s with count := s.count - 1, queued := s.queued + 1 }
  | admitTask (s : PoolState) (h : 0 < s.queued) :
      PoolStep s { s with queued := s.queued - 1, active := s.active + 1 }
  | pause (s : PoolState) (h : 0 < s.active) :
      PoolStep s
        { s with active := s.active - 1, paused := s.paused + 1,
                 count := semRelease s.count }
  | pausedRelease (s : PoolState) (h : 0 < s.paused) :
      PoolStep s
        { s with count := semRelease s.count,
                 overReleased := s.overReleased + 1 }
  | resume (s : PoolState) (h : 0 < s.paused) (hc : 0 < s.count) :
      PoolStep s
        { s with paused := s.paused - 1, active := s.active + 1,
                 count := s.count - 1 }
  | complete (s : PoolState) (h : 0 < s.active) :
      PoolStep s { s with active := s.active - 1, count := semRelease s.count }
  | completePaused (s : PoolState) (h : 0 < s.paused) :
      PoolStep s
        { s with paused := s.paused - 1, count := semRelease s.count,
                 overReleased := s.overReleased + 1 }
  | cancelActive (s : PoolState) (h : 0 < s.active) :
      PoolStep s { s with active := s.active - 1, count := semRelease s.count }
  | cancelPaused (s : PoolState) (h : 0 < s.paused) :
      PoolStep s
        { s with paused := s.paused - 1, count := semRelease s.count,
                 overReleased := s.overReleased + 1 }

/-- States the engine can reach from construction. -/
inductive PoolReachable : PoolState → Prop where
  | init : PoolReachable initPool
  | step {s t : PoolState} (hs : PoolReachable s) (h : PoolStep s t) :
      PoolReachable t

/-- Concrete trace: submit and admit eight transfers, pause one (the
worker pause handler releases its permit), then submit and admit a
ninth using the freed slot. -/
theorem pool_eight_active_one_paused :
    PoolReachable { count := 0, queued := 0, active := 8, paused := 1, overReleased := 0 } := by
  have h1 : PoolReachable { count := 7, queued := 1, active := 0, paused := 0, overReleased := 0 } :=
    PoolReachable.step PoolReachable.init (PoolStep.submit _ (by decide))
  have h2 : PoolReachable { count := 7, queued := 0, active := 1, paused := 0, overReleased := 0 } :=
    PoolReachable.step h1 (PoolStep.admitTask _ (by decide))
  have h3 : PoolReachable { count := 6, queued := 0, active := 2, paused := 0, overReleased := 0 } :=
    PoolReachable.step (PoolReachable.step h2 (PoolStep.submit _ (by decide)))
      (PoolStep.admitTask _ (by decide))
  have h4 : PoolReachable { count := 5, queued := 0, active := 3, paused := 0, overReleased := 0 } :=
    PoolReachable.step (PoolReachable.step h3 (PoolStep.submit _ (by decide)))
      (PoolStep.admitTask _ (by decide))
  have h5 : PoolReachable { count := 4, queued := 0, active := 4, paused := 0, overReleased := 0 } :=
    PoolReachable.step (PoolReachable.step h4 (PoolStep.submit _ (by decide)))
      (PoolStep.admitTask _ (by decide))
  have h6 : PoolReachable { count := 3, queued := 0, active := 5, paused := 0, overReleased := 0 } :=
    PoolReachable.step (PoolReachable.step h5 (PoolStep.submit _ (by decide)))
      (PoolStep.admitTask _ (by decide))
  have h7 : PoolReachable { count := 2, queued := 0, active := 6, paused := 0, overReleased := 0 } :=
    PoolReachable.step (PoolReachable.step h6 (PoolStep.submit _ (by decide)))
      (PoolStep.admitTask _ (by decide))
  have h8 : PoolReachable { count := 1, queued := 0, active := 7, paused := 0, overReleased := 0 } :=
    PoolReachable.step (PoolReachable.step h7 (PoolStep.submit _ (by decide)))
      (PoolStep.admitTask _ (by decide))
  have h9 : PoolReachable { count := 0, queued := 0, active := 8, paused := 0, overReleased := 0 } :=
    PoolReachable.step (PoolReachable.step h8 (PoolStep.submit _ (by decide)))
      (PoolStep.admitTask _ (by decide))
  have h10 : PoolReachable { count := 1, queued := 0, active := 7, paused := 1, overReleased := 0 } :=
    PoolReachable.step h9 (PoolStep.pause _ (by decide))
  exact PoolReachable.step
    (PoolReachable.step h10 (PoolStep.submit _ (by decide)))
    (PoolStep.admitTask _ (by decide))

/-- C3 counterexample: pausing a transfer releases its permit, so the
engine admits another one and reaches a state with 8 transferring plus 1
paused task: the in-flight list holds 9 tasks, and under either reading
(in-flight list size plus paused count, or transferring count plus
paused count) the claimed bound of MAX_CONNECTION = 8 is exceeded. -/
theorem C3_counterexample :
    PoolReachable { count := 0, queued := 0, active := 8, paused := 1, overReleased := 0 } ∧
      ¬((8 + 1) + 1 ≤ MAX_CONNECTION) ∧ ¬(8 + 1 ≤ MAX_CONNECTION) :=
  ⟨pool_eight_active_one_paused, by decide, by decide⟩

/-- C3 (amended): the permit accounting bounds the submitted-plus-
transferring tasks, not the whole in-flight list, and only up to the
worker over-releases: in every reachable state, queued + active +
semaphore count is at most MAX_CONNECTION plus the number of
over-release events so far (a cancel of a paused task, a pause event
landing on an already-paused task via the resume-then-pause race, or a
completion harvested for a paused task — each hands a second permit to
the same slot); in particular, in any execution with no over-release
event, queued + active ≤ MAX_CONNECTION, while paused transfers are not
counted against the limit at all. -/
theorem C3_slot_invariant (s : PoolState) (hs : PoolReachable s) :
    s.queued + s.active + s.count ≤ MAX_CONNECTION + s.overReleased ∧
      (s.overReleased = 0 → s.queued + s.active ≤ MAX_CONNECTION) := by
  have hmain : s.queued + s.active + s.count ≤
      MAX_CONNECTION + s.overReleased := by
    induction hs with
    | init => simp [initPool]
    | step hs hstep ih =>
      cases hstep with
      | submit h => simp only; omega
      | admitTask h => simp only; omega
      | pause h =>
        simp only [semRelease]
        split <;> omega
      | pausedRelease h =>
        simp only [semRelease]
        split <;> omega
      | resume h hc => simp only; omega
      | complete h =>
        simp only [semRelease]
        split <;> omega
      | completePaused h =>
        simp only [semRelease]
        split <;> omega
      | cancelActive h =>
        simp only [semRelease]
        split <;> omega
      | cancelPaused h =>
        simp only [semRelease]
        split <;> omega
  exact ⟨hmain, fun h0 => by omega⟩

/-- C3 witness: the slot invariant at the initial engine state. -/
theorem C3_slot_invariant_witness :
    initPool.queued + initPool.active ≤ MAX_CONNECTION :=
  (C3_slot_invariant initPool PoolReachable.init).2 rfl

/-- Tightness of the over-release accounting: through the
resume-then-pause race the engine reaches nine actively transferring
tasks with not a single cancel issued — one over-release event raises
the admitted total to MAX_CONNECTION + 1 — so no invariant of the form
queued + active ≤ MAX_CONNECTION holds of the program unconditionally. -/
theorem pool_nine_active_reachable :
    PoolReachable { count := 0, queued := 0, active := 9, paused := 0, overReleased := 1 } := by
  have h0 : PoolReachable { count := 0, queued := 0, active := 8, paused := 1, overReleased := 0 } :=
    pool_eight_active_one_paused
  have h1 : PoolReachable { count := 1, queued := 0, active := 8, paused := 1, overReleased := 1 } :=
    PoolReachable.step h0 (PoolStep.pausedRelease _ (by decide))
  exact PoolReachable.step h1 (PoolStep.resume _ (by decide) (by decide))

/- ======================================================================
   Part 5: lifecycle of one task and its promise.
   Source: the worker loop of src/HttpClient.cpp.  A submitted task sits
   in the requests queue until the worker admits it; the harvest path
   calls promise.set_value once and erases the task; the cancel handler
   calls promise.set_exception once for a task still in curl2Task and
   erases it (a second cancel event no longer finds the task and is
   skipped); the stop handler calls promise.set_exception for every task
   in the transfers list (whether transferring or paused) and then exits
   the loop — it never touches the requests queue, so a task still
   queued at stop keeps an unfulfilled promise.
   ====================================================================== -/

/-- Phase of one observed task: in the requests queue, admitted and
transferring, admitted and paused, promise set to a value (natural
completion), promise failed with the cancelled error, promise failed
with the engine-stopped error, or left behind unfulfilled in the
requests queue when the worker exited. -/
inductive Phase where
  | inQueue
  | active
  | paused
  | settledValue
  | settledCancel
  | settledStop
  | abandonedQueued
deriving DecidableEq, Repr

/-- Phases in which the promise has been given a value or an
exception. -/
def Phase.isSettled (p : Phase) : Prop :=
  p = Phase.settledValue ∨ p = Phase.settledCancel ∨ p = Phase.settledStop

instance (p : Phase) : Decidable p.isSettled := by
  unfold Phase.isSettled; infer_instance

/-- State of one observed task: its phase, how many times its promise
has been fulfilled (set_value or set_exception), and whether stop has
been processed by the worker. -/
structure TaskState where
  phase : Phase
  fulfilled : Nat
  stopped : Bool
deriving DecidableEq, Repr

/-- A task right after send_request enqueued it: queued, promise
untouched, engine running. -/
def initTask : TaskState :=
  { phase := Phase.inQueue, fulfilled := 0, stopped := false }

/-- Steps the engine can take on one task while the worker runs.  The
worker exits its loop at the stop check, so every step requires the
engine not to be stopped yet; the three stop steps record what the stop
handler does to the task depending on where it is at that moment. -/
inductive TaskStep : TaskState → TaskState → Prop where
  | admitTask (s : TaskState) (hrun : s.stopped = false) (h : s.phase = Phase.inQueue) :
      TaskStep s { s with phase := Phase.active }
  | pauseEv (s : TaskState) (hrun : s.stopped = false) (h : s.phase = Phase.active) :
      TaskStep s { s with phase := Phase.paused }
  | resumeEv (s : TaskState) (hrun : s.stopped = false) (h : s.phase = Phase.paused) :
      TaskStep s { s with phase := Phase.active }
  | completeEv (s : TaskState) (hrun : s.stopped = false) (h : s.phase = Phase.active) :
      TaskStep s { s with phase := Phase.settledValue, fulfilled := s.fulfilled + 1 }
  | cancelEvActive (s : TaskState) (hrun : s.stopped = false) (h : s.phase = Phase.active) :
      TaskStep s { s with phase := Phase.settledCancel, fulfilled := s.fulfilled + 1 }
  | cancelEvPaused (s : TaskState) (hrun : s.stopped = false) (h : s.phase = Phase.paused) :
      TaskStep s { s with phase := Phase.settledCancel, fulfilled := s.fulfilled + 1 }
  | cancelEvMiss (s : TaskState) (hrun : s.stopped = false)
      (h : s.phase = Phase.inQueue ∨ s.phase.isSettled) :
      TaskStep s s
  | stopInFlight (s : TaskState) (hrun : s.stopped = false)
      (h : s.phase = Phase.active ∨ s.phase = Phase.paused) :
      TaskStep s
        { s with phase := Phase.settledStop, fulfilled := s.fulfilled + 1,
                 stopped := true }
  | stopQueued (s : TaskState) (hrun : s.stopped = false)
      (h : s.phase = Phase.inQueue) :
      TaskStep s { s with phase := Phase.abandonedQueued, stopped := true }
  | stopSettled (s : TaskState) (hrun : s.stopped = false)
      (h : s.phase.isSettled) :
      TaskStep s { s with stopped := true }

/-- Task states reachable from submission. -/
inductive TaskReachable : TaskState → Prop where
  | init : TaskReachable initTask
  | step {s t : TaskState} (hs : TaskReachable s) (h : TaskStep s t) :
      TaskReachable t

/-- C2 counterexample: a task submitted and still sitting in the
requests queue when the worker processes stop is abandoned with its
promise fulfilled zero times — not exactly once as the claim states for
the stop path — and it is not settled (every further step of the machine
requires the engine to still be running, so the count stays 0 forever). -/
theorem C2_counterexample :
    TaskReachable { phase := Phase.abandonedQueued, fulfilled := 0, stopped := true } ∧
      (0 : Nat) ≠ 1 ∧
      ¬ (Phase.abandonedQueued).isSettled := by
  exact ⟨TaskReachable.step TaskReachable.init (TaskStep.stopQueued _ rfl rfl),
    by decide, by decide⟩

/-- C2 (amended): across any reachable point of a task lifetime the
promise is fulfilled at most once, and it has been fulfilled exactly
once precisely when the task has settled (natural completion, cancel, or
stop while in flight); a task that the engine stop leaves in the
requests queue is abandoned with the promise never fulfilled. -/
theorem C2_promise_at_most_once (s : TaskState) (hs : TaskReachable s) :
    s.fulfilled ≤ 1 ∧ (s.fulfilled = 1 ↔ s.phase.isSettled) ∧
      (s.phase = Phase.abandonedQueued → s.fulfilled = 0) := by
  have hmain : (s.fulfilled = 1 ∧ s.phase.isSettled) ∨
      (s.fulfilled = 0 ∧ ¬ s.phase.isSettled) := by
    induction hs with
    | init => exact Or.inr ⟨rfl, by decide⟩
    | step hs hstep ih =>
      cases hstep with
      | admitTask hrun h =>
        rcases ih with ⟨h1, h2⟩ | ⟨h1, h2⟩
        · rw [h] at h2; simp [Phase.isSettled] at h2
        · exact Or.inr ⟨h1, by simp [Phase.isSettled]⟩
      | pauseEv hrun h =>
        rcases ih with ⟨h1, h2⟩ | ⟨h1, h2⟩
        · rw [h] at h2; simp [Phase.isSettled] at h2
        · exact Or.inr ⟨h1, by simp [Phase.isSettled]⟩
      | resumeEv hrun h =>
        rcases ih with ⟨h1, h2⟩ | ⟨h1, h2⟩
        · rw [h] at h2; simp [Phase.isSettled] at h2
        · exact Or.inr ⟨h1, by simp [Phase.isSettled]⟩
      | completeEv hrun h =>
        rcases ih with ⟨h1, h2⟩ | ⟨h1, h2⟩
        · rw [h] at h2; simp [Phase.isSettled] at h2
        · exact Or.inl ⟨by simp [h1], by simp [Phase.isSettled]⟩
      | cancelEvActive hrun h =>
        rcases ih with ⟨h1, h2⟩ | ⟨h1, h2⟩
        · rw [h] at h2; simp [Phase.isSettled] at h2
        · exact Or.inl ⟨by simp [h1], by simp [Phase.isSettled]⟩
      | cancelEvPaused hrun h =>
        rcases ih with ⟨h1, h2⟩ | ⟨h1, h2⟩
        · rw [h] at h2; simp [Phase.isSettled] at h2
        · exact Or.inl ⟨by simp [h1], by simp [Phase.isSettled]⟩
      | cancelEvMiss hrun h => exact ih
      | stopInFlight hrun h =>
        rcases ih with ⟨h1, h2⟩ | ⟨h1, h2⟩
        · rcases h with h | h <;> rw [h] at h2 <;> simp [Phase.isSettled] at h2
        · exact Or.inl ⟨by simp [h1], by simp [Phase.isSettled]⟩
      | stopQueued hrun h =>
        rcases ih with ⟨h1, h2⟩ | ⟨h1, h2⟩
        · rw [h] at h2; simp [Phase.isSettled] at h2
        · exact Or.inr ⟨h1, by simp [Phase.isSettled]⟩
      | stopSettled hrun h => exact ih
  rcases hmain with ⟨h1, h2⟩ | ⟨h1, h2⟩
  · refine ⟨by omega, ⟨fun _ => h2, fun _ => h1⟩, ?_⟩
    intro habs
    rw [habs] at h2
    simp [Phase.isSettled] at h2
  · refine ⟨by omega, ⟨fun he => absurd (he ▸ h1) (by omega), fun hset => absurd hset h2⟩, ?_⟩
    intro _
    exact h1

/-- C2 witness: the fulfilment invariant at a freshly submitted task. -/
theorem C2_promise_at_most_once_witness : initTask.fulfilled ≤ 1 :=
  (C2_promise_at_most_once initTask TaskReachable.init).1

/-- C4 bug evaluation: the stop handler transition taken from a freshly
submitted, still-queued task produces the abandoned state — its promise
is not failed with the stopped-engine description (fulfilled stays 0 and
the phase is not settledStop), unlike what the claim requires for
pending requests. -/
theorem C4_bug_eval :
    TaskStep initTask { phase := Phase.abandonedQueued, fulfilled := 0, stopped := true } ∧
      Phase.abandonedQueued ≠ Phase.settledStop ∧
      ¬ (Phase.abandonedQueued).isSettled := by
  exact ⟨TaskStep.stopQueued _ rfl rfl, by decide, by decide⟩

/-- C4 partial positive side: a task that is in flight — transferring or
paused — when the worker processes stop does get its promise failed by
the stop handler: the stop step from such a state yields the
settledStop phase with the promise fulfilled once more. -/
theorem C4_stop_fails_inflight (s : TaskState) (hrun : s.stopped = false)
    (h : s.phase = Phase.active ∨ s.phase = Phase.paused) :
    TaskStep s
      { s with phase := Phase.settledStop, fulfilled := s.fulfilled + 1,
               stopped := true } :=
  TaskStep.stopInFlight s hrun h

/-- C4 witness for the positive side: a just-admitted active task. -/
theorem C4_stop_fails_inflight_witness :
    TaskStep { phase := Phase.active, fulfilled := 0, stopped := false }
      { phase := Phase.settledStop, fulfilled := 1, stopped := true } :=
  C4_stop_fails_inflight
    { phase := Phase.active, fulfilled := 0, stopped := false } rfl (Or.inl rfl)

/- ======================================================================
   Part 6: the retry-completion decision.
   Source for the data model: the AttemptRecord / RetryContext /
   RetryPolicy declarations shipped in the repository headers (attempt
   history with most recent last, attemptCount as the history length,
   lastCompleteAt as the completion time of the most recent attempt,
   maxRetries and totalTimeout scalars plus the two pluggable closures).
   The body of HttpClient::handle_retry_completion itself is only
   declared in include/HttpClient.hpp; its definition is not part of the
   sources, so the decision function below is modelled from the
   specification.
   ====================================================================== -/

/-- Response model from the repository headers: status code, header
lines, body bytes and the error description (empty on success). -/
structure HttpResponse where
  status : Int
  headers : List String
  body : String
  error : String
deriving DecidableEq, Repr

/-- Struct AttemptRecord: the Response snapshot of one attempt, the CURL
terminal code of that attempt (0 when an HTTP response was received) and
the absolute completion time in seconds. -/
structure AttemptRecord where
  response : HttpResponse
  curlCode : Nat
  complete_at : ℚ
deriving DecidableEq, Repr

/-- Struct RetryContext: the attempt history, most recent last, and the
absolute time of the first attempt. -/
structure RetryContext where
  attempts : List AttemptRecord
  first_attempt_at : ℚ

/-- Accessor RetryContext::attemptCount: the length of the history. -/
def RetryContext.attemptCount (ctx : RetryContext) : Nat :=
  ctx.attempts.length

/-- Accessor RetryContext::lastAttempt: the most recent record, if
any. -/
def RetryContext.lastAttempt (ctx : RetryContext) : Option AttemptRecord :=
  ctx.attempts.getLast?

/-- Accessor RetryContext::lastCompleteAt: completion time of the most
recent attempt, 0 when the history is empty. -/
def RetryContext.lastCompleteAt (ctx : RetryContext) : ℚ :=
  match ctx.attempts.getLast? with
  | none => 0
  | some a => a.complete_at

/-- Struct RetryPolicy: maxRetries (attempts after the first),
totalTimeout in seconds since the first attempt (0 disables the budget),
and the two pluggable closures. -/
structure RetryPolicy where
  maxRetries : Nat
  totalTimeout : ℚ
  shouldRetry : RetryContext → Bool
  getNextRetryTime : RetryContext → ℚ

/-- Outcome of the completion of one attempt of a retry-capable task:
either the task is queued for another attempt at an absolute time, or
its promise is resolved with the Response of this final attempt. -/
inductive RetryDecision where
  | retry (retryAt : ℚ)
  | fulfill (response : HttpResponse)

/-- Modelled from the spec: the body of
HttpClient::handle_retry_completion is declared in include/HttpClient.hpp
but not defined in the sources; following the specification, it appends
an AttemptRecord (response snapshot, driver code, now) to the context,
then retries iff shouldRetry(ctx) holds, attemptCount < maxRetries + 1,
and totalTimeout is 0 or now − first_attempt_at < totalTimeout, queueing
the task at getNextRetryTime(ctx); otherwise it fulfills the promise
with the detached Response. -/
def handle_retry_completion (policy : RetryPolicy) (ctx : RetryContext)
    (response : HttpResponse) (curlCode : Nat) (now : ℚ) :
    RetryDecision × RetryContext :=
  let ctx2 : RetryContext :=
    { ctx with attempts := ctx.attempts ++
        [{ response := response, curlCode := curlCode, complete_at := now }] }
  if policy.shouldRetry ctx2 = true then
    if ctx2.attemptCount < policy.maxRetries + 1 then
      if policy.totalTimeout = 0 ∨ now - ctx2.first_attempt_at < policy.totalTimeout then
        (RetryDecision.retry (policy.getNextRetryTime ctx2), ctx2)
      else
        (RetryDecision.fulfill response, ctx2)
    else
      (RetryDecision.fulfill response, ctx2)
  else
    (RetryDecision.fulfill response, ctx2)

/-- C5: after a completed attempt, with ctx2 the context extended by the
new AttemptRecord, the task is re-attempted (queued at
getNextRetryTime(ctx2)) precisely when shouldRetry(ctx2) holds, the
attempt count is strictly below maxRetries + 1, and totalTimeout is 0 or
now − first_attempt_at < totalTimeout; whenever any of the three fails,
the promise is resolved — not failed — with the final attempt Response. -/
theorem C5_retry_eligibility (policy : RetryPolicy) (ctx : RetryContext)
    (response : HttpResponse) (curlCode : Nat) (now : ℚ) :
    ((handle_retry_completion policy ctx response curlCode now).1 =
        RetryDecision.retry (policy.getNextRetryTime
          { ctx with attempts := ctx.attempts ++
              [{ response := response, curlCode := curlCode, complete_at := now }] }) ↔
      (policy.shouldRetry
          { ctx with attempts := ctx.attempts ++
              [{ response := response, curlCode := curlCode, complete_at := now }] } = true ∧
        ctx.attempts.length + 1 < policy.maxRetries + 1 ∧
        (policy.totalTimeout = 0 ∨ now - ctx.first_attempt_at < policy.totalTimeout))) ∧
      (¬ (policy.shouldRetry
            { ctx with attempts := ctx.attempts ++
                [{ response := response, curlCode := curlCode, complete_at := now }] } = true ∧
          ctx.attempts.length + 1 < policy.maxRetries + 1 ∧
          (policy.totalTimeout = 0 ∨ now - ctx.first_attempt_at < policy.totalTimeout)) →
        (handle_retry_completion policy ctx response curlCode now).1 =
          RetryDecision.fulfill response) := by
  unfold handle_retry_completion
  simp only [RetryContext.attemptCount, List.length_append, List.length_cons,
    List.length_nil]
  constructor
  · constructor
    · intro hres
      by_cases h1 : policy.shouldRetry
          { ctx with attempts := ctx.attempts ++
              [{ response := response, curlCode := curlCode, complete_at := now }] } = true
      · by_cases h2 : ctx.attempts.length + 1 < policy.maxRetries + 1
        · by_cases h3 : policy.totalTimeout = 0 ∨
              now - ctx.first_attempt_at < policy.totalTimeout
          · exact ⟨h1, h2, h3⟩
          · simp [h1, h2, h3] at hres
        · simp [h1, h2] at hres
      · simp [h1] at hres
    · intro ⟨h1, h2, h3⟩
      simp [h1, h2, h3]
  · intro hne
    by_cases h1 : policy.shouldRetry
        { ctx with attempts := ctx.attempts ++
            [{ response := response, curlCode := curlCode, complete_at := now }] } = true
    · by_cases h2 : ctx.attempts.length + 1 < policy.maxRetries + 1
      · by_cases h3 : policy.totalTimeout = 0 ∨
            now - ctx.first_attempt_at < policy.totalTimeout
        · exact absurd ⟨h1, h2, h3⟩ hne
        · simp [h1, h2, h3]
      · simp [h1, h2]
    · simp [h1]

/-- C5 witness: a policy that always wants to retry, applied to a fresh
context within budget, queues the task at the time computed by the
backoff closure. -/
theorem C5_retry_eligibility_witness :
    (handle_retry_completion
        { maxRetries := 3, totalTimeout := 0,
          shouldRetry := fun _ => true,
          getNextRetryTime := fun c => c.lastCompleteAt + 1 }
        { attempts := [], first_attempt_at := 5 }
        { status := 503, headers := [], body := "", error := "" } 0 7).1 =
      RetryDecision.retry 8 := by
  have h := (C5_retry_eligibility
    { maxRetries := 3, totalTimeout := 0,
      shouldRetry := fun _ => true,
      getNextRetryTime := fun c => c.lastCompleteAt + 1 }
    { attempts := [], first_attempt_at := 5 }
    { status := 503, headers := [], body := "", error := "" } 0 7).1.mpr
    ⟨rfl, by norm_num, Or.inl rfl⟩
  rw [h]
  norm_num [RetryContext.lastCompleteAt]

end HttpClientV
